import Mathlib

/-!
Shallow embedding of src/limix/stats/kinship.py.

The file embeds the two functions of the module, `linear_kinship` and
`gower_norm`, and proves the frozen claims about them.

Numeric values are modelled as exact rationals.  The only irrational
operation the source uses, `numpy.sqrt`, is passed to `linear_kinship` as an
explicit function argument `sq : ℚ → ℚ` (in the source it is an imported
library function); every theorem below quantifies over `sq`, which is sound
because — as the proofs show — the value of `sq` is never reached on any
execution path of the code as written.

Python semantics that matter here:
  * `X` is a local variable of `linear_kinship` that is assigned only inside
    the loop body (`X = X - X.mean(0)`); reading it before the first
    assignment raises `UnboundLocalError`.  We model the local `X` as an
    `Option` threaded through the loop, `none` meaning unbound.
  * `(n, p) = G.shape` raises a `ValueError` (tuple unpacking) when
    `G.shape` does not have exactly two entries.
  * an exception aborts the function; mutations performed before the
    exception persist in a caller-supplied buffer, so the loop also returns
    the state it had reached when the exception occurred.
-/

/-- Python exceptions reachable in `linear_kinship`. -/
inductive PyErr where
  | unboundLocalError : PyErr
  | valueError : PyErr
deriving DecidableEq

/-- A 2-d numpy array of floats, modelled as a list of rows of rationals. -/
abbrev LMat := List (List ℚ)

/-- A numpy ndarray of arbitrary rank: its shape together with its (row-major)
flat data.  `linear_kinship` only ever reads `G.shape` (the slice
`G[:, start:stop]` the algorithm was meant to take is absent from the code),
so the flat data is carried only for the call surface. -/
structure NDArr where
  shape : List ℕ
  data : List ℚ
deriving DecidableEq

/-- `numpy.zeros((n, m))`. -/
def zerosMat (n m : ℕ) : LMat :=
  List.replicate n (List.replicate m (0 : ℚ))

/-- Column `j` of a list matrix. -/
def colOf (X : LMat) (j : ℕ) : List ℚ :=
  X.map (fun r => r.getD j 0)

/-- Number of columns of a list matrix. -/
def ncols (X : LMat) : ℕ :=
  (X.headD []).length

/-- `X.mean(0)`: per-column mean over the rows. -/
def colMean (X : LMat) : List ℚ :=
  (List.range (ncols X)).map (fun j => (colOf X j).sum / (X.length : ℚ))

/-- `X.std(0)` with numpy's default `ddof=0`: per-column population standard
deviation, the square root taken by the supplied `sq`. -/
def colStd (sq : ℚ → ℚ) (X : LMat) : List ℚ :=
  (List.range (ncols X)).map (fun j =>
    sq (((colOf X j).map
      (fun v => (v - (colOf X j).sum / (X.length : ℚ)) ^ 2)).sum
        / (X.length : ℚ)))

/-- `X - v` for a row vector `v` broadcast over the rows of `X`. -/
def subRowvec (X : LMat) (v : List ℚ) : LMat :=
  X.map (fun r => List.zipWith (fun a b => a - b) r v)

/-- `X /= v` for a row vector `v` broadcast over the rows of `X`. -/
def divRowvec (X : LMat) (v : List ℚ) : LMat :=
  X.map (fun r => List.zipWith (fun a b => a / b) r v)

/-- `X /= s` for a scalar `s`. -/
def divScalar (X : LMat) (s : ℚ) : LMat :=
  X.map (fun r => r.map (fun a => a / s))

/-- Dot product of two rows. -/
def dotRow (a b : List ℚ) : ℚ :=
  (List.zipWith (fun x y => x * y) a b).sum

/-- `X.dot(X.T)`: the Gram matrix of the rows of `X`.
(`ascontiguousarray(·, float)` is the identity on values.) -/
def gramMat (X : LMat) : LMat :=
  X.map (fun r => X.map (fun r2 => dotRow r r2))

/-- Elementwise `out += Y`. -/
def matAdd (A B : LMat) : LMat :=
  List.zipWith (List.zipWith (fun a b => a + b)) A B

set_option linter.unusedVariables false in
/-- One iteration of the loop of `linear_kinship`, for chunk index `i`.
The state is the pair (local `X`, accumulator `out`); `X?` is `none` while
the local `X` is still unbound.  The body mirrors the source lines

    start = i * (p // nsteps)
    stop = min(start + p // nsteps, p)
    X = X - X.mean(0)
    X /= X.std(0)
    X /= sqrt(p)
    out += ascontiguousarray(X.dot(X.T), float)

the first read of `X` raising `UnboundLocalError` when `X` is unbound
(which, `X` never being assigned before the loop, it always is on entry to
the first iteration). -/
def kinBody (sq : ℚ → ℚ) (p nsteps i : ℕ) (X? : Option LMat) (out : LMat) :
    Except PyErr (Option LMat × LMat) :=
  let start := i * (p / nsteps)
  let stop := min (start + p / nsteps) p
  match X? with
  | none => .error .unboundLocalError
  | some X =>
    let X := subRowvec X (colMean X)
    let X := divRowvec X (colStd sq X)
    let X := divScalar X (sq (p : ℚ))
    .ok (some X, matAdd out (gramMat X))

/-- Runs the loop of `linear_kinship` over the chunk indices `is`, returning
the state reached together with the exception, if one was raised.  Returning
the state even on the error path records the content a caller-supplied `out`
buffer has been left with when the exception aborts the call. -/
def kinLoop (sq : ℚ → ℚ) (p nsteps : ℕ) :
    List ℕ → Option LMat × LMat → (Option LMat × LMat) × Option PyErr
  | [], st => (st, none)
  | i :: rest, st =>
    match kinBody sq p nsteps i st.1 st.2 with
    | .error e => (st, some e)
    | .ok st' => kinLoop sq p nsteps rest st'

/-- Packages the outcome of the loop of `linear_kinship`: on a raised
exception the call aborts with it, otherwise the accumulator is returned
(`return out`); either way, when the caller supplied an `out` buffer, that
buffer is left holding the accumulator state the loop reached. -/
def kinFinish (out : Option LMat) (r : (Option LMat × LMat) × Option PyErr) :
    Except PyErr LMat × Option LMat :=
  match r.2 with
  | some e => (.error e, out.map (fun _ => r.1.2))
  | none => (.ok r.1.2, out.map (fun _ => r.1.2))

set_option linter.unusedVariables false in
/-- `linear_kinship(G, out, progress)`, returning the Python result (a
matrix, or the exception that aborted the call) paired with the final
content of the caller-supplied `out` buffer (`none` when the caller supplied
none).  `out = none` becomes the fresh accumulator `zeros((n, n))`, and
`nsteps = min(30, p)` chunk indices are iterated.  `progress` is only handed
to `tqdm`, which displays a progress bar over the unchanged iterator
`range(nsteps)`; it takes no part in the computation. -/
def linear_kinship_run (sq : ℚ → ℚ) (G : NDArr) (out : Option LMat)
    (progress : Bool) : Except PyErr LMat × Option LMat :=
  match G.shape with
  | [n, p] =>
    kinFinish out
      (kinLoop sq p (min 30 p) (List.range (min 30 p))
        (none, out.getD (zerosMat n n)))
  | _ => (.error .valueError, out)

/-- The value `linear_kinship(G, out, progress)` evaluates to: the returned
matrix, or the exception raised. -/
def linear_kinship (sq : ℚ → ℚ) (G : NDArr) (out : Option LMat)
    (progress : Bool) : Except PyErr LMat :=
  (linear_kinship_run sq G out progress).1

/-- The Gower denominator of an n×n matrix `K`:
`K.trace() - K.mean(0).sum()`, where `K.mean(0)` is the vector of
per-column means. -/
def gowerDenom {n : ℕ} (K : Matrix (Fin n) (Fin n) ℚ) : ℚ :=
  Matrix.trace K - ∑ j, (∑ i, K i j) / (n : ℚ)

/-- The Gower scalar `c = (K.shape[0] - 1) / (K.trace() - K.mean(0).sum())`. -/
def gowerC {n : ℕ} (K : Matrix (Fin n) (Fin n) ℚ) : ℚ :=
  ((n : ℚ) - 1) / gowerDenom K

set_option linter.unusedVariables false in
/-- `gower_norm(K, out)`, returning the pair (Python return value, final
content of the caller-supplied `out` buffer).  With `out` absent the source
returns the fresh matrix `c * K` and touches no buffer; with `out` present
it does `copyto(out, K); out *= c` — overwriting `o`, whose previous content
is discarded — and falls off the end of the function, returning `None`. -/
def gower_norm {n : ℕ} (K : Matrix (Fin n) (Fin n) ℚ)
    (out : Option (Matrix (Fin n) (Fin n) ℚ)) :
    Option (Matrix (Fin n) (Fin n) ℚ) × Option (Matrix (Fin n) (Fin n) ℚ) :=
  let c := gowerC K
  match out with
  | none => (some (c • K), none)
  | some o => (none, some (c • K))

/-! Helper lemmas about the loop of `linear_kinship`. -/

theorem kinBody_unbound (sq : ℚ → ℚ) (p ns i : ℕ) (out : LMat) :
    kinBody sq p ns i none out = .error .unboundLocalError := rfl

theorem kinLoop_cons_unbound (sq : ℚ → ℚ) (p ns i : ℕ) (rest : List ℕ)
    (out : LMat) :
    kinLoop sq p ns (i :: rest) (none, out) =
      ((none, out), some .unboundLocalError) := rfl

theorem kinLoop_no_valueError (sq : ℚ → ℚ) (p ns : ℕ) :
    ∀ (l : List ℕ) (st : Option LMat × LMat),
      (kinLoop sq p ns l st).2 ≠ some .valueError := by
  intro l
  induction l with
  | nil => intro st h; exact Option.noConfusion h
  | cons i rest ih =>
    intro st
    obtain ⟨X?, out⟩ := st
    cases X? with
    | none =>
      rw [kinLoop_cons_unbound]
      intro h
      exact PyErr.noConfusion (Option.some.inj h)
    | some X =>
      show (kinLoop sq p ns (i :: rest) (some X, out)).2 ≠ some .valueError
      unfold kinLoop kinBody
      exact ih _

/-- Evaluation of `linear_kinship_run` on a 2-dimensional `G` of shape
`(n, p)`: with `p = 0` the loop body never runs and the accumulator is
returned; with `p ≥ 1` the first loop iteration reads the unbound local `X`
and the call aborts with `UnboundLocalError`, before the accumulator has
been touched.  Either way a caller-supplied `out` buffer ends up holding
its initial content. -/
theorem linear_kinship_run_eq (sq : ℚ → ℚ) (G : NDArr) (out : Option LMat)
    (progress : Bool) (n p : ℕ) (hshape : G.shape = [n, p]) :
    linear_kinship_run sq G out progress =
      (if p = 0 then .ok (out.getD (zerosMat n n))
       else .error .unboundLocalError,
       out.map (fun _ => out.getD (zerosMat n n))) := by
  unfold linear_kinship_run
  rw [hshape]
  show kinFinish out
      (kinLoop sq p (min 30 p) (List.range (min 30 p))
        (none, out.getD (zerosMat n n))) = _
  rcases Nat.eq_zero_or_pos p with hp | hp
  · subst hp
    simp [kinLoop, kinFinish]
  · have hmin : min 30 p = (min 30 p - 1) + 1 :=
      (Nat.succ_pred_eq_of_pos (by omega)).symm
    rw [if_neg (by omega), hmin, List.range_succ_eq_map, kinLoop_cons_unbound]
    rfl

/-- Claim C2: for a 2-dimensional `G` of shape `(n, p)` with `p ≥ 1`,
`linear_kinship` raises `UnboundLocalError` (the loop body reads `X` before
`X` is ever assigned) and a caller-supplied `out` buffer is left entirely
unchanged; no successful return is reachable.  Only when `p = 0` does the
loop body never run, and the function returns the untouched accumulator
without error. -/
theorem claim_C2 (sq : ℚ → ℚ) (G : NDArr) (out : Option LMat)
    (progress : Bool) (n p : ℕ) (hshape : G.shape = [n, p]) :
    (linear_kinship_run sq G out progress).2 = out ∧
    (1 ≤ p → linear_kinship sq G out progress = .error .unboundLocalError) ∧
    (p = 0 → linear_kinship sq G out progress = .ok (out.getD (zerosMat n n))) := by
  have h := linear_kinship_run_eq sq G out progress n p hshape
  refine ⟨?_, ?_, ?_⟩
  · rw [h]
    cases out <;> rfl
  · intro hp
    unfold linear_kinship
    rw [h, if_neg (by omega)]
  · intro hp
    unfold linear_kinship
    rw [h, if_pos hp]

/-- Claim C2, witness: a concrete 2×3 input with a supplied buffer: the call
evaluates to `UnboundLocalError` and the buffer keeps its initial content. -/
theorem claim_C2_witness :
    (NDArr.mk [2, 3] [1, 2, 3, 4, 5, 6]).shape = [2, 3] ∧
    (linear_kinship_run (fun q => q) ⟨[2, 3], [1, 2, 3, 4, 5, 6]⟩
      (some [[1, 0], [0, 1]]) true).2 = some [[1, 0], [0, 1]] ∧
    linear_kinship (fun q => q) ⟨[2, 3], [1, 2, 3, 4, 5, 6]⟩
      (some [[1, 0], [0, 1]]) true = .error .unboundLocalError :=
  ⟨rfl,
   (claim_C2 (fun q => q) ⟨[2, 3], [1, 2, 3, 4, 5, 6]⟩
     (some [[1, 0], [0, 1]]) true 2 3 rfl).1,
   (claim_C2 (fun q => q) ⟨[2, 3], [1, 2, 3, 4, 5, 6]⟩
     (some [[1, 0], [0, 1]]) true 2 3 rfl).2.1 (by decide)⟩

/-- Claim C1, code-bug evidence: at the failing input `G = [[0]]` (shape
`(1, 1)`, so `p ≥ 1`), the code aborts with `UnboundLocalError` instead of
returning the chunked standardized Gram-matrix sum its own docstring
example promises. -/
theorem claim_C1_code_bug (sq : ℚ → ℚ) :
    linear_kinship sq ⟨[1, 1], [0]⟩ none true = .error .unboundLocalError := rfl

/-- Claim C3, code-bug evidence: at `G = [[1]]` with pre-existing buffer
`K0 = [[2]]`, both `linear_kinship(G, out=K0)` and `linear_kinship(G)`
abort with `UnboundLocalError`, so neither side of the claimed identity
`linear_kinship(G, out=K0) = K0 + linear_kinship(G)` is ever produced. -/
theorem claim_C3_code_bug (sq : ℚ → ℚ) :
    linear_kinship sq ⟨[1, 1], [1]⟩ (some [[2]]) true =
      .error .unboundLocalError ∧
    linear_kinship sq ⟨[1, 1], [1]⟩ none true = .error .unboundLocalError :=
  ⟨rfl, rfl⟩

/-- Claim C8, code-bug evidence: with a supplied 3×3 zero buffer and a 3×2
`G`, the call never returns at all — it aborts with `UnboundLocalError`,
and the buffer still holds its initial zeros (no accumulation was ever
performed into it, and nothing was returned aliasing it). -/
theorem claim_C8_code_bug (sq : ℚ → ℚ) :
    linear_kinship_run sq ⟨[3, 2], [1, 2, 3, 4, 5, 6]⟩ (some (zerosMat 3 3))
      true = (.error .unboundLocalError, some (zerosMat 3 3)) := rfl

/-- Claim C10: the `progress` flag is only forwarded to the progress-bar
display and takes no part in the computation, so the result of the call —
return value, raised exception and final buffer content alike — is
identical under `progress=True` and `progress=False`. -/
theorem claim_C10 (sq : ℚ → ℚ) (G : NDArr) (out : Option LMat) :
    linear_kinship sq G out true = linear_kinship sq G out false ∧
    linear_kinship_run sq G out true = linear_kinship_run sq G out false :=
  ⟨rfl, rfl⟩

/-- Claim C7, counterexample: `G` of shape `(1, 0)` is 2-dimensional with a
supplied 2×2 buffer, whose shape differs from the expected `(1, 1)` — yet
the call raises nothing at all: it returns the wrongly-shaped buffer
unchanged.  So a mis-shaped `out` does not produce a ShapeError-equivalent,
contradicting the claim's "exactly when". -/
theorem claim_C7_counterexample :
    linear_kinship (fun q => q) ⟨[1, 0], []⟩ (some (zerosMat 2 2)) true =
      .ok (zerosMat 2 2) ∧ (zerosMat 2 2).length ≠ 1 :=
  ⟨rfl, by decide⟩

/-- Claim C7, amended: `linear_kinship` raises the ShapeError-equivalent
(the `ValueError` from unpacking `(n, p) = G.shape`) exactly when `G` is
not 2-dimensional.  A caller-supplied `out` of wrong shape never triggers a
shape error: with `p = 0` the call returns `out` unchanged whatever its
shape, and with `p ≥ 1` it aborts with `UnboundLocalError` before `out` is
ever used. -/
theorem claim_C7_amended (sq : ℚ → ℚ) (G : NDArr) (out : Option LMat)
    (progress : Bool) :
    (linear_kinship sq G out progress = .error .valueError ↔
      G.shape.length ≠ 2) ∧
    (∀ n ob, G.shape = [n, 0] →
      linear_kinship sq G (some ob) progress = .ok ob) ∧
    (∀ n p, G.shape = [n, p] → 1 ≤ p →
      linear_kinship sq G out progress = .error .unboundLocalError) := by
  refine ⟨?_, ?_, ?_⟩
  · obtain ⟨s, d⟩ := G
    cases s with
    | nil => exact iff_of_true rfl (by simp)
    | cons a t =>
      cases t with
      | nil => exact iff_of_true rfl (by simp)
      | cons b u =>
        cases u with
        | nil =>
          have h := linear_kinship_run_eq sq ⟨[a, b], d⟩ out progress a b rfl
          unfold linear_kinship
          rw [h]
          split_ifs <;> simp
        | cons c v =>
          refine iff_of_true rfl ?_
          simp only [List.length_cons]
          omega
  · intro n ob hshape
    exact (claim_C2 sq G (some ob) progress n 0 hshape).2.2 rfl
  · intro n p hshape hp
    exact (claim_C2 sq G out progress n p hshape).2.1 hp

/-- Claim C7, amended, witness: a 3-dimensional `G` raises the unpacking
`ValueError`; a 2-dimensional `G` with `p = 0` and a mis-shaped buffer
returns that buffer unchanged without error; a 2-dimensional `G` with
`p ≥ 1` aborts with `UnboundLocalError`, not a shape error. -/
theorem claim_C7_amended_witness :
    linear_kinship (fun q => q) ⟨[1, 2, 3], [0]⟩ none true =
      .error .valueError ∧
    linear_kinship (fun q => q) ⟨[2, 0], []⟩ (some [[3]]) true = .ok [[3]] ∧
    linear_kinship (fun q => q) ⟨[2, 5], List.replicate 10 1⟩ none true =
      .error .unboundLocalError :=
  ⟨(claim_C7_amended (fun q => q) ⟨[1, 2, 3], [0]⟩ none true).1.mpr
     (by decide),
   (claim_C7_amended (fun q => q) ⟨[2, 0], []⟩ none true).2.1 2 [[3]] rfl,
   (claim_C7_amended (fun q => q) ⟨[2, 5], List.replicate 10 1⟩ none
      true).2.2 2 5 rfl (by decide)⟩

/-! Lemmas about the Gower rescaling. -/

theorem gowerDenom_smul {n : ℕ} (c : ℚ) (K : Matrix (Fin n) (Fin n) ℚ) :
    gowerDenom (c • K) = c * gowerDenom K := by
  simp only [gowerDenom, Matrix.trace_smul, smul_eq_mul, Matrix.smul_apply,
    ← Finset.mul_sum, mul_div_assoc, mul_sub]

theorem gowerDenom_eq_zero_of_le_one {n : ℕ} (hn : n ≤ 1)
    (K : Matrix (Fin n) (Fin n) ℚ) : gowerDenom K = 0 := by
  rcases Nat.le_one_iff_eq_zero_or_eq_one.mp hn with h | h <;> subst h
  · simp [gowerDenom, Matrix.trace]
  · simp [gowerDenom, Matrix.trace, Matrix.diag, Fin.sum_univ_one]

set_option linter.unusedVariables false in
/-- Claim C4: with `out` absent and a nonzero Gower denominator,
`gower_norm(K)` returns the fresh matrix `c * K` with
`c = (n - 1) / (K.trace() - K.mean(0).sum())` — the subtrahend being the
sum of the per-column means, not the grand mean — and touches no caller
buffer (the input `K` itself is never written to: the embedding is a pure
function of `K`, matching the source's allocation of a new array `c * K`). -/
theorem claim_C4 {n : ℕ} (K : Matrix (Fin n) (Fin n) ℚ)
    (hd : Matrix.trace K - ∑ j, (∑ i, K i j) / (n : ℚ) ≠ 0) :
    (gower_norm K none).1 =
      some (Matrix.of fun i j =>
        (((n : ℚ) - 1) / (Matrix.trace K - ∑ j', (∑ i', K i' j') / (n : ℚ)))
          * K i j) ∧
    (gower_norm K none).2 = none := by
  constructor
  · show some (gowerC K • K) = _
    congr 1
  · rfl

/-- Claim C4, witness: for `K = [[2, 0], [0, 2]]` the denominator is
`4 - 2 = 2 ≠ 0`, and the returned matrix is `(1/2) * K = [[1, 0], [0, 1]]`. -/
theorem claim_C4_witness :
    (Matrix.trace (!![2, 0; 0, 2] : Matrix (Fin 2) (Fin 2) ℚ) -
      ∑ j, (∑ i, (!![2, 0; 0, 2] : Matrix (Fin 2) (Fin 2) ℚ) i j) / (2 : ℚ)
        ≠ 0) ∧
    ((gower_norm (!![2, 0; 0, 2] : Matrix (Fin 2) (Fin 2) ℚ) none).1 =
      some (Matrix.of fun i j =>
        (((2 : ℚ) - 1) /
          (Matrix.trace (!![2, 0; 0, 2] : Matrix (Fin 2) (Fin 2) ℚ) -
            ∑ j', (∑ i', (!![2, 0; 0, 2] : Matrix (Fin 2) (Fin 2) ℚ) i' j')
              / (2 : ℚ)))
          * (!![2, 0; 0, 2] : Matrix (Fin 2) (Fin 2) ℚ) i j) ∧
     (gower_norm (!![2, 0; 0, 2] : Matrix (Fin 2) (Fin 2) ℚ) none).2 = none) := by
  have h : Matrix.trace (!![2, 0; 0, 2] : Matrix (Fin 2) (Fin 2) ℚ) -
      ∑ j, (∑ i, (!![2, 0; 0, 2] : Matrix (Fin 2) (Fin 2) ℚ) i j) / (2 : ℚ)
        ≠ 0 := by
    norm_num [Matrix.trace_fin_two, Fin.sum_univ_two]
  exact ⟨h, claim_C4 (!![2, 0; 0, 2] : Matrix (Fin 2) (Fin 2) ℚ) h⟩

/-- Claim C5: `gower_norm` is idempotent.  If the Gower denominator of `K`
is nonzero and `gower_norm(K)` returns `K'`, then `gower_norm(K')` returns
`K'` itself: the rescaling factor computed for `K'` is exactly 1. -/
theorem claim_C5 {n : ℕ} (K : Matrix (Fin n) (Fin n) ℚ)
    (hd : gowerDenom K ≠ 0) (K' : Matrix (Fin n) (Fin n) ℚ)
    (hK' : (gower_norm K none).1 = some K') :
    (gower_norm K' none).1 = some K' := by
  have hn : 2 ≤ n := by
    by_contra h
    exact hd (gowerDenom_eq_zero_of_le_one (by omega) K)
  have hone : ((n : ℚ) - 1) ≠ 0 := by
    have h2 : (2 : ℚ) ≤ (n : ℚ) := by exact_mod_cast hn
    intro h0
    nlinarith
  have hK'eq : K' = gowerC K • K := by
    have h := hK'
    rw [show (gower_norm K none).1 = some (gowerC K • K) from rfl] at h
    exact (Option.some.inj h).symm
  subst hK'eq
  have hc1 : gowerC (gowerC K • K) = 1 := by
    unfold gowerC
    rw [gowerDenom_smul, div_mul_cancel₀ _ hd]
    exact div_self hone
  rw [show (gower_norm (gowerC K • K) none).1 =
      some (gowerC (gowerC K • K) • (gowerC K • K)) from rfl, hc1, one_smul]

/-- Claim C5, witness: `gower_norm([[2, 0], [0, 2]])` returns the identity
matrix, and applying `gower_norm` to it again returns it unchanged. -/
theorem claim_C5_witness :
    gowerDenom (!![2, 0; 0, 2] : Matrix (Fin 2) (Fin 2) ℚ) ≠ 0 ∧
    (gower_norm (!![2, 0; 0, 2] : Matrix (Fin 2) (Fin 2) ℚ) none).1 =
      some (!![1, 0; 0, 1] : Matrix (Fin 2) (Fin 2) ℚ) ∧
    (gower_norm (!![1, 0; 0, 1] : Matrix (Fin 2) (Fin 2) ℚ) none).1 =
      some (!![1, 0; 0, 1] : Matrix (Fin 2) (Fin 2) ℚ) := by
  have hd : gowerDenom (!![2, 0; 0, 2] : Matrix (Fin 2) (Fin 2) ℚ) ≠ 0 := by
    norm_num [gowerDenom, Matrix.trace_fin_two, Fin.sum_univ_two]
  have hc : gowerC (!![2, 0; 0, 2] : Matrix (Fin 2) (Fin 2) ℚ) = 1 / 2 := by
    norm_num [gowerC, gowerDenom, Matrix.trace_fin_two, Fin.sum_univ_two]
  have h2 : (gower_norm (!![2, 0; 0, 2] : Matrix (Fin 2) (Fin 2) ℚ) none).1 =
      some (!![1, 0; 0, 1] : Matrix (Fin 2) (Fin 2) ℚ) := by
    rw [show (gower_norm (!![2, 0; 0, 2] : Matrix (Fin 2) (Fin 2) ℚ) none).1 =
        some (gowerC (!![2, 0; 0, 2] : Matrix (Fin 2) (Fin 2) ℚ) •
          (!![2, 0; 0, 2] : Matrix (Fin 2) (Fin 2) ℚ)) from rfl, hc]
    congr 1
    ext i j
    fin_cases i <;> fin_cases j <;> norm_num [Matrix.smul_apply]
  exact ⟨hd, h2,
    claim_C5 (!![2, 0; 0, 2] : Matrix (Fin 2) (Fin 2) ℚ) hd
      (!![1, 0; 0, 1] : Matrix (Fin 2) (Fin 2) ℚ) h2⟩

/-- Claim C9: with a caller-supplied `out` buffer, `gower_norm` returns
`None` (no meaningful return value), leaves the out buffer holding `c * K`
— `K`'s values copied in and scaled, the buffer's prior content having been
overwritten, not accumulated into (the outcome is identical for any two
prior contents `o`, `o'`) — and does not modify the input `K` (the
embedding is a pure function of `K`). -/
theorem claim_C9 {n : ℕ} (K o o' : Matrix (Fin n) (Fin n) ℚ) :
    gower_norm K (some o) =
      (none, some ((((n : ℚ) - 1) /
        (Matrix.trace K - ∑ j, (∑ i, K i j) / (n : ℚ))) • K)) ∧
    gower_norm K (some o) = gower_norm K (some o') :=
  ⟨rfl, rfl⟩
